import Mathlib

/-
Verification of the terminal input decoding pipeline of clui_lib
(src/console/keystroke_posix.py and src/console/keystroke_common.py),
shallowly embedded in Lean 4.

Python bytes are modelled as `List Nat` (each element a byte value),
Python `str` values as `List Nat` of Unicode code points, and fallible
computations (IndexError from an unguarded scan, KeyError from a dict
index, UnicodeDecodeError from `bytes.decode`) as `Option` results with
`none` for the raised exception.
-/

/-- Value stored in the `Keys` field of a `ControlCode`: either the list of
key-combination strings obtained from the ASCII_CONTROL_MAPPING table, or
the string 'Undefined' used as the default of `dict.get` at line 254 of
keystroke_posix.py. -/
inductive PyKeys where
  | of (ks : List String)
  | undefined
deriving DecidableEq

/-- Python value appearing in the result lists of `SplitCharacters` and
`ParseEscapeSequence`: a `str` (list of code points), a `ControlCode`
instance (keystroke_common.py lines 69-124, with its `Name` and `Keys`
fields), or a raw `bytes` object (which line 170 of keystroke_posix.py
actually appends). -/
inductive PyVal where
  | str (cs : List Nat)
  | ctrl (Name : String) (Keys : PyKeys)
  | bytes (bs : List Nat)
deriving DecidableEq

/-- Code points of a Lean string literal, used to write concrete Python
strings such as 'Alt-' or a CSI table value. -/
def cps (s : String) : List Nat := s.data.map Char.toNat

/-- The ASCII_CONTROL_CODES dictionary of keystroke_common.py lines 30-65:
byte value to symbolic control-code name; `none` models a missing key. -/
def ASCII_CONTROL_CODES (c : Nat) : Option String :=
  if c = 0 then some "NUL"
  else if c = 1 then some "SOH"
  else if c = 2 then some "STX"
  else if c = 3 then some "ETX"
  else if c = 4 then some "EOT"
  else if c = 5 then some "ENQ"
  else if c = 6 then some "ACK"
  else if c = 7 then some "BEL"
  else if c = 8 then some "BS"
  else if c = 9 then some "TAB"
  else if c = 10 then some "LF"
  else if c = 11 then some "VT"
  else if c = 12 then some "FF"
  else if c = 13 then some "CR"
  else if c = 14 then some "SO"
  else if c = 15 then some "SI"
  else if c = 16 then some "DLE"
  else if c = 17 then some "DC1"
  else if c = 18 then some "DC2"
  else if c = 19 then some "DC3"
  else if c = 20 then some "DC4"
  else if c = 21 then some "NAK"
  else if c = 22 then some "SYN"
  else if c = 23 then some "ETB"
  else if c = 24 then some "CAN"
  else if c = 25 then some "EM"
  else if c = 26 then some "SUB"
  else if c = 27 then some "ESC"
  else if c = 28 then some "FS"
  else if c = 29 then some "GS"
  else if c = 30 then some "RS"
  else if c = 31 then some "US"
  else if c = 32 then some "SPACE"
  else if c = 127 then some "DEL"
  else none

/-- UTF-8 encoding of one code point, as used by `bytes(Input, 'utf-8')`
at line 259 of keystroke_posix.py. -/
def utf8EncodeChar (c : Nat) : List Nat :=
  if c < 0x80 then [c]
  else if c < 0x800 then [0xC0 + c / 0x40, 0x80 + c % 0x40]
  else if c < 0x10000 then
    [0xE0 + c / 0x1000, 0x80 + (c / 0x40) % 0x40, 0x80 + c % 0x40]
  else
    [0xF0 + c / 0x40000, 0x80 + (c / 0x1000) % 0x40,
     0x80 + (c / 0x40) % 0x40, 0x80 + c % 0x40]

/-- UTF-8 encoding of a Python string (list of code points). -/
def utf8Encode (s : List Nat) : List Nat :=
  (s.map utf8EncodeChar).flatten

/-- Decoding of one UTF-8 encoded character at the front of a byte list:
the lead byte `b`, the following bytes `rest`, and on success the decoded
code point with the unconsumed remainder. `none` models a raised
UnicodeDecodeError (continuation-byte errors, overlong forms, surrogates
and out-of-range code points are rejected, as in CPython). -/
def utf8DecodeStep (b : Nat) (rest : List Nat) : Option (Nat × List Nat) :=
  if b < 0x80 then some (b, rest)
  else if b < 0xC2 then none
  else if b < 0xE0 then
    match rest with
    | b1 :: r =>
      if 0x80 ≤ b1 ∧ b1 < 0xC0 then some ((b - 0xC0) * 0x40 + (b1 - 0x80), r)
      else none
    | [] => none
  else if b < 0xF0 then
    match rest with
    | b1 :: b2 :: r =>
      if (0x80 ≤ b1 ∧ b1 < 0xC0) ∧ (0x80 ≤ b2 ∧ b2 < 0xC0) then
        if 0x800 ≤ (b - 0xE0) * 0x1000 + (b1 - 0x80) * 0x40 + (b2 - 0x80) ∧
           ((b - 0xE0) * 0x1000 + (b1 - 0x80) * 0x40 + (b2 - 0x80) < 0xD800 ∨
            0xDFFF < (b - 0xE0) * 0x1000 + (b1 - 0x80) * 0x40 + (b2 - 0x80)) then
          some ((b - 0xE0) * 0x1000 + (b1 - 0x80) * 0x40 + (b2 - 0x80), r)
        else none
      else none
    | _ => none
  else if b < 0xF5 then
    match rest with
    | b1 :: b2 :: b3 :: r =>
      if (0x80 ≤ b1 ∧ b1 < 0xC0) ∧ (0x80 ≤ b2 ∧ b2 < 0xC0) ∧
         (0x80 ≤ b3 ∧ b3 < 0xC0) then
        if 0x10000 ≤ (b - 0xF0) * 0x40000 + (b1 - 0x80) * 0x1000 +
              (b2 - 0x80) * 0x40 + (b3 - 0x80) ∧
           (b - 0xF0) * 0x40000 + (b1 - 0x80) * 0x1000 +
              (b2 - 0x80) * 0x40 + (b3 - 0x80) ≤ 0x10FFFF then
          some ((b - 0xF0) * 0x40000 + (b1 - 0x80) * 0x1000 +
                (b2 - 0x80) * 0x40 + (b3 - 0x80), r)
        else none
      else none
    | _ => none
  else none

/-- Fuelled iteration of `utf8DecodeStep` over a whole byte list. Every
step consumes at least one byte, so fuel equal to the list length (as
supplied by `utf8Decode`) is always sufficient and the fuel-exhausted
case is unreachable. -/
def utf8DecodeFuel : Nat → List Nat → Option (List Nat)
  | _, [] => some []
  | 0, _ :: _ => none
  | (fuel + 1), (b :: rest) =>
    match utf8DecodeStep b rest with
    | some (cp, r) => (utf8DecodeFuel fuel r).map (fun t => cp :: t)
    | none => none

/-- Strict UTF-8 decoding of a byte list, as performed by
`bytes.decode('utf_8')`; `none` models a raised UnicodeDecodeError. -/
def utf8Decode (l : List Nat) : Option (List Nat) :=
  utf8DecodeFuel l.length l

/-- SplitCharacters (keystroke_posix.py lines 83-113): splits a Python
string into 1-character strings and ControlCode instances. `ACM` models
the external ASCII_CONTROL_MAPPING dictionary (module xterm_new_mapping,
not in the repository snapshot); its direct indexing
`ASCII_CONTROL_MAPPING[Name]` at line 110 raises KeyError on a missing
name, modelled by `none`. -/
def SplitCharacters (ACM : String → Option (List String)) :
    List Nat → Option (List PyVal)
  | [] => some []
  | c :: rest =>
    match ASCII_CONTROL_CODES c with
    | some Name =>
      match ACM Name with
      | some ks =>
        (SplitCharacters ACM rest).map (fun t => PyVal.ctrl Name (PyKeys.of ks) :: t)
      | none => none
    | none => (SplitCharacters ACM rest).map (fun t => PyVal.str [c] :: t)

/-- Leading scan of ParseEscapeSequence (keystroke_posix.py lines 142-149):
`while Data[Index] != 27: Index += 1` followed by the slicing
`Data[:Index]` / position of the first ESC. Returns the leading non-ESC
bytes and the bytes after the first ESC; `none` models the IndexError
raised when the input contains no ESC byte at all. -/
def firstEscSplit : List Nat → Option (List Nat × List Nat)
  | [] => none
  | b :: rest =>
    if b = 27 then some ([], rest)
    else (firstEscSplit rest).map (fun q => (b :: q.1, q.2))

/-- Grouping loop of ParseEscapeSequence (keystroke_posix.py lines
150-156): `cur` is the current slice `Data[Start:Index]` (which always
begins with the ESC byte) and the argument list is the not yet scanned
remainder `Data[Index:]`; at each further ESC byte the current slice is
appended to the group buffer, and the last slice is appended after the
loop. -/
def collectGroups (cur : List Nat) : List Nat → List (List Nat)
  | [] => [cur]
  | b :: rest =>
    if b = 27 then cur :: collectGroups [b] rest
    else collectGroups (cur ++ [b]) rest

/-- Longest-proper-prefix loop of ParseEscapeSequence (keystroke_posix.py
lines 167-173): `for Index in range(len(Escaped) - 1, 1, -1)`, stopping at
the first CSI table hit; note that line 170 appends the raw `Clipped`
bytes object itself, not `CSI_MAPPING[Clipped]`. When the loop runs out
without a hit nothing at all is appended. `CSI` models the external
CSI_MAPPING dictionary as an association list. -/
def searchClipped (CSI : List (List Nat × List Nat))
    (ACM : String → Option (List String)) (Escaped : List Nat) :
    Nat → Option (List PyVal)
  | 0 => some []
  | 1 => some []
  | (n + 2) =>
    match List.lookup (Escaped.take (n + 2)) CSI with
    | some _ =>
      match utf8Decode (Escaped.drop (n + 2)) with
      | some s =>
        (SplitCharacters ACM s).map (fun t => PyVal.bytes (Escaped.take (n + 2)) :: t)
      | none => none
    | none => searchClipped CSI ACM Escaped (n + 1)

/-- Per-group classification in the body of the `for Escaped in
EscapedBuffer` loop of ParseEscapeSequence (keystroke_posix.py lines
157-175): exact CSI table match, else the Alt branch for a printable
second byte, else the longest-prefix search, else (only for groups
shorter than 2 bytes) a bare ESC ControlCode. -/
def classifyGroup (CSI : List (List Nat × List Nat))
    (ACM : String → Option (List String)) (Escaped : List Nat) :
    Option (List PyVal) :=
  match List.lookup Escaped CSI with
  | some v => some [PyVal.str v]
  | none =>
    match Escaped with
    | _ :: b1 :: _ =>
      if 32 ≤ b1 ∧ b1 < 127 then
        if 2 < Escaped.length then
          match utf8Decode (Escaped.drop 2) with
          | some s =>
            (SplitCharacters ACM s).map
              (fun t => PyVal.str (cps "Alt-" ++ [b1]) :: t)
          | none => none
        else some [PyVal.str (cps "Alt-" ++ [b1])]
      else searchClipped CSI ACM Escaped (Escaped.length - 1)
    | _ =>
      match ACM "ESC" with
      | some ks => some [PyVal.ctrl "ESC" (PyKeys.of ks)]
      | none => none

/-- Classification of all collected escape groups in input order
(keystroke_posix.py line 157, iterating the loop body over
EscapedBuffer). -/
def classifyGroups (CSI : List (List Nat × List Nat))
    (ACM : String → Option (List String)) :
    List (List Nat) → Option (List PyVal)
  | [] => some []
  | g :: rest => do
    let e ← classifyGroup CSI ACM g
    let t ← classifyGroups CSI ACM rest
    some (e ++ t)

/-- ParseEscapeSequence (keystroke_posix.py lines 115-176): leading
non-ESC bytes are decoded and split as ordinary characters, the rest is
split into escape groups at each ESC byte, and every group is classified
in order. -/
def ParseEscapeSequence (CSI : List (List Nat × List Nat))
    (ACM : String → Option (List String)) (Data : List Nat) :
    Option (List PyVal) := do
  let q ← firstEscSplit Data
  let le ←
    if q.1 = [] then some []
    else do
      let s ← utf8Decode q.1
      SplitCharacters ACM s
  let ge ← classifyGroups CSI ACM (collectGroups [27] q.2)
  some (le ++ ge)

/-- Python `dict.get(Name, 'Undefined')` as used at line 254 of
keystroke_posix.py on the ASCII_CONTROL_MAPPING table. -/
def dictGet (ACM : String → Option (List String)) (Name : String) : PyKeys :=
  match ACM Name with
  | some ks => PyKeys.of ks
  | none => PyKeys.undefined

/-- One decoder poll of KeystrokesListener (keystroke_posix.py lines
249-265): given the accumulated input string of this poll (as a list of
code points), the list of events pushed into the output buffer. A
1-character input is looked up in ASCII_CONTROL_CODES and pushed as a
ControlCode or as the literal string itself; a longer input is UTF-8
encoded and either parsed as escape sequences (when an ESC byte occurs)
or split as ordinary characters. -/
def KeystrokesListener (CSI : List (List Nat × List Nat))
    (ACM : String → Option (List String)) (Input : List Nat) :
    Option (List PyVal) :=
  match Input with
  | [] => some []
  | [Code] =>
    match ASCII_CONTROL_CODES Code with
    | some Name => some [PyVal.ctrl Name (dictGet ACM Name)]
    | none => some [PyVal.str [Code]]
  | _ =>
    if 27 ∈ utf8Encode Input then ParseEscapeSequence CSI ACM (utf8Encode Input)
    else SplitCharacters ACM Input

/-- The InputBuffer queue of keystroke_common.py lines 126-272: the
`_IsActive` flag and the `_Buffer` list storage. -/
structure InputBuffer (α : Type) where
  IsActive : Bool
  Buffer : List α
deriving DecidableEq

/-- InputBuffer.IsNotEmpty (keystroke_common.py lines 185-199). -/
def InputBuffer.IsNotEmpty (q : InputBuffer α) : Bool :=
  !q.Buffer.isEmpty

/-- InputBuffer.activate (keystroke_common.py lines 201-213). -/
def InputBuffer.activate (q : InputBuffer α) : InputBuffer α :=
  { q with IsActive := true }

/-- InputBuffer.deactivate (keystroke_common.py lines 215-227). -/
def InputBuffer.deactivate (q : InputBuffer α) : InputBuffer α :=
  { q with IsActive := false }

/-- InputBuffer.put (keystroke_common.py lines 229-240): appends at the
tail when active, otherwise leaves the state unchanged. -/
def InputBuffer.put (q : InputBuffer α) (Data : α) : InputBuffer α :=
  if q.IsActive then { q with Buffer := q.Buffer ++ [Data] } else q

/-- InputBuffer.get (keystroke_common.py lines 242-260): when non-empty
and active, pops and returns the head; otherwise returns None (here
`none`) and leaves the storage untouched. -/
def InputBuffer.get (q : InputBuffer α) : Option α × InputBuffer α :=
  if q.IsNotEmpty then
    if q.IsActive then (q.Buffer.head?, { q with Buffer := q.Buffer.tail })
    else (none, q)
  else (none, q)

/-- InputBuffer.empty (keystroke_common.py lines 262-272). -/
def InputBuffer.empty (q : InputBuffer α) : InputBuffer α :=
  { q with Buffer := [] }

/-- Successive `put` calls for a list of items, in order. -/
def putList (q : InputBuffer α) : List α → InputBuffer α
  | [] => q
  | x :: xs => putList (q.put x) xs

/-- Results of `n` successive `get` calls, in order. -/
def getList (q : InputBuffer α) : Nat → List (Option α) × InputBuffer α
  | 0 => ([], q)
  | n + 1 =>
    let r := q.get
    let rs := getList r.2 n
    (r.1 :: rs.1, rs.2)

/-- One interaction step observed by the StdinListener loop (keystroke
posix.py lines 202-204): a concurrent deactivation of the shared buffer
between iterations, a successful blocking 1-character read, or a read
that raises. -/
inductive ReadEvent where
  | deactivate
  | read (c : Nat)
  | fail
deriving DecidableEq

/-- The `while Buffer.IsActive` loop of StdinListener (keystroke_posix.py
lines 202-204), driven by a finite trace of interaction steps; the
terminal-settings state is threaded unchanged through the loop. Returns
the final buffer, the terminal settings at loop exit and whether the loop
was left by a raised read error. -/
def stdinLoop (q : InputBuffer Nat) (term : σ) :
    List ReadEvent → InputBuffer Nat × σ × Bool
  | [] => (q, term, false)
  | ev :: rest =>
    match ev with
    | ReadEvent.deactivate => stdinLoop (q.deactivate) term rest
    | ReadEvent.read c =>
      if q.IsActive then stdinLoop (q.put c) term rest
      else (q, term, false)
    | ReadEvent.fail =>
      if q.IsActive then (q, term, true)
      else (q, term, false)

/-- StdinListener (keystroke_posix.py lines 180-209): captures the
current terminal settings (tcgetattr), switches the terminal to cbreak
mode inside the `try` block, runs the read loop, and in the `finally`
block restores the captured settings on every exit path; the `except`
clause swallows the read error after printing it. Returns the final
buffer, the restored terminal settings and whether an error was caught. -/
def StdinListener (setcbreak : σ → σ) (term : σ) (events : List ReadEvent)
    (q : InputBuffer Nat) : InputBuffer Nat × σ × Bool :=
  let original_settings := term
  let r := stdinLoop q (setcbreak term) events
  (r.1, original_settings, r.2.2)

/-- Modelled from the spec: the CSI lookup table is external data from the
module xterm_new_mapping, which is absent from the repository snapshot;
the spec (sections 6 and 8) describes it as a mapping from an exact
multi-byte sequence beginning with ESC to a symbolic event, with the
example entry ESC `[` `A` mapped to "ArrowUp". -/
def sampleCSI : List (List Nat × List Nat) :=
  [([27, 91, 65], cps "ArrowUp"), ([27, 91, 66], cps "ArrowDown")]

/-- Modelled from the spec: the ASCII_CONTROL_MAPPING table is external
data from the missing module xterm_new_mapping; the spec (section 6)
describes it as a mapping from symbolic name to one or more
human-readable key-combination strings, e.g. "BEL" to ["Ctrl-g"]. -/
def sampleACM : String → Option (List String) :=
  fun Name => if Name = "BEL" then some ["Ctrl-g"] else some ["Key-" ++ Name]

/-- Modelled from the spec: a CSI table with an entry whose second byte is
not printable; the spec (section 6) constrains CSI table keys only to be
exact multi-byte sequences beginning with ESC, so such a table is an
admissible instance of the external data, and it is the only kind of
table for which the longest-proper-prefix branch of ParseEscapeSequence
is reachable. -/
def sampleCSIodd : List (List Nat × List Nat) :=
  [([27, 1], cps "Weird")]

example : utf8Decode [65, 120] = some [65, 120] := by decide
example : ParseEscapeSequence sampleCSI sampleACM [27, 91, 65] =
    some [PyVal.str (cps "ArrowUp")] := by decide
example : ParseEscapeSequence sampleCSI sampleACM [27, 91, 65, 120] =
    some [PyVal.str (cps "Alt-" ++ [91]), PyVal.str [65], PyVal.str [120]] := by
  decide
example : ParseEscapeSequence sampleCSI sampleACM [65, 27, 1] =
    some [PyVal.str [65]] := by decide
example : KeystrokesListener sampleCSI sampleACM [32] =
    some [PyVal.ctrl "SPACE" (PyKeys.of ["Key-SPACE"])] := by decide
example : KeystrokesListener sampleCSI sampleACM [120] =
    some [PyVal.str [120]] := by decide

/-- Bytes between 33 and 126 are not keys of ASCII_CONTROL_CODES. -/
theorem noCtrlName (c : Nat) (h1 : 33 ≤ c) (h2 : c < 127) :
    ASCII_CONTROL_CODES c = none := by
  unfold ASCII_CONTROL_CODES
  rw [if_neg (by omega : ¬ c = 0), if_neg (by omega : ¬ c = 1),
      if_neg (by omega : ¬ c = 2), if_neg (by omega : ¬ c = 3),
      if_neg (by omega : ¬ c = 4), if_neg (by omega : ¬ c = 5),
      if_neg (by omega : ¬ c = 6), if_neg (by omega : ¬ c = 7),
      if_neg (by omega : ¬ c = 8), if_neg (by omega : ¬ c = 9),
      if_neg (by omega : ¬ c = 10), if_neg (by omega : ¬ c = 11),
      if_neg (by omega : ¬ c = 12), if_neg (by omega : ¬ c = 13),
      if_neg (by omega : ¬ c = 14), if_neg (by omega : ¬ c = 15),
      if_neg (by omega : ¬ c = 16), if_neg (by omega : ¬ c = 17),
      if_neg (by omega : ¬ c = 18), if_neg (by omega : ¬ c = 19),
      if_neg (by omega : ¬ c = 20), if_neg (by omega : ¬ c = 21),
      if_neg (by omega : ¬ c = 22), if_neg (by omega : ¬ c = 23),
      if_neg (by omega : ¬ c = 24), if_neg (by omega : ¬ c = 25),
      if_neg (by omega : ¬ c = 26), if_neg (by omega : ¬ c = 27),
      if_neg (by omega : ¬ c = 28), if_neg (by omega : ¬ c = 29),
      if_neg (by omega : ¬ c = 30), if_neg (by omega : ¬ c = 31),
      if_neg (by omega : ¬ c = 32), if_neg (by omega : ¬ c = 127)]

/-- Strict UTF-8 decoding is the identity on a list of ASCII bytes. -/
theorem utf8Decode_ascii : ∀ l : List Nat, (∀ c ∈ l, c < 128) →
    utf8Decode l = some l := by
  intro l
  induction l with
  | nil => intro _; rfl
  | cons c rest ih =>
    intro h
    have hc : c < 128 := h c (by simp)
    have hs : utf8DecodeStep c rest = some (c, rest) := by
      unfold utf8DecodeStep
      rw [if_pos hc]
    have ht := ih (fun d hd => h d (List.mem_cons_of_mem _ hd))
    simp only [utf8Decode, List.length_cons] at ht ⊢
    simp only [utf8DecodeFuel, hs]
    rw [ht]
    rfl

/-- On code points outside ASCII_CONTROL_CODES, SplitCharacters returns one
1-character string per code point. -/
theorem SplitCharacters_noCtrl (ACM : String → Option (List String)) :
    ∀ l : List Nat, (∀ c ∈ l, ASCII_CONTROL_CODES c = none) →
    SplitCharacters ACM l = some (l.map (fun c => PyVal.str [c])) := by
  intro l
  induction l with
  | nil => intro _; rfl
  | cons c rest ih =>
    intro h
    have hc : ASCII_CONTROL_CODES c = none := h c (by simp)
    have ht := ih (fun d hd => h d (List.mem_cons_of_mem _ hd))
    simp [SplitCharacters, hc, ht]

/-- When the input contains an ESC byte, the leading scan succeeds and
splits the input into an ESC-free leading part, the first ESC byte and
the remainder. -/
theorem firstEscSplit_some : ∀ Data : List Nat, 27 ∈ Data →
    ∃ le te, firstEscSplit Data = some (le, te) ∧ Data = le ++ 27 :: te ∧
      27 ∉ le := by
  intro Data
  induction Data with
  | nil => intro h; simp at h
  | cons b rest ih =>
    intro h
    by_cases hb : b = 27
    · subst hb
      exact ⟨[], rest, by simp [firstEscSplit], rfl, by simp⟩
    · have hm : 27 ∈ rest := by
        rcases List.mem_cons.mp h with h1 | h1
        · exact absurd h1.symm hb
        · exact h1
      obtain ⟨le, te, h1, h2, h3⟩ := ih hm
      refine ⟨b :: le, te, ?_, ?_, ?_⟩
      · simp [firstEscSplit, hb, h1]
      · simp [h2]
      · intro hc
        rcases List.mem_cons.mp hc with h4 | h4
        · exact hb h4.symm
        · exact h3 h4

/-- The leading scan fails (raising IndexError in the source) exactly when
the input contains no ESC byte. -/
theorem firstEscSplit_none : ∀ Data : List Nat,
    firstEscSplit Data = none ↔ 27 ∉ Data := by
  intro Data
  induction Data with
  | nil => simp [firstEscSplit]
  | cons b rest ih =>
    by_cases hb : b = 27
    · subst hb; simp [firstEscSplit]
    · have hs : firstEscSplit (b :: rest) =
          (firstEscSplit rest).map (fun q => (b :: q.1, q.2)) := by
        simp [firstEscSplit, hb]
      rw [hs, Option.map_eq_none', ih]
      constructor
      · intro h hc
        rcases List.mem_cons.mp hc with h1 | h1
        · exact hb h1.symm
        · exact h h1
      · intro h hc
        exact h (List.mem_cons_of_mem _ hc)

/-- The collected escape groups concatenate back to the scanned input. -/
theorem collectGroups_flatten : ∀ (l cur : List Nat),
    (collectGroups cur l).flatten = cur ++ l := by
  intro l
  induction l with
  | nil => intro cur; simp [collectGroups]
  | cons b rest ih =>
    intro cur
    by_cases hb : b = 27
    · subst hb; simp [collectGroups, ih]
    · simp [collectGroups, hb, ih]

/-- Every collected escape group begins with the ESC byte and contains no
further ESC byte, provided the current slice does. -/
theorem collectGroups_mem : ∀ (l cur tc : List Nat), cur = 27 :: tc →
    27 ∉ tc → ∀ g ∈ collectGroups cur l, ∃ r, g = 27 :: r ∧ 27 ∉ r := by
  intro l
  induction l with
  | nil =>
    intro cur tc h1 h2 g hg
    simp [collectGroups] at hg
    exact ⟨tc, hg ▸ h1, h2⟩
  | cons b rest ih =>
    intro cur tc h1 h2 g hg
    by_cases hb : b = 27
    · subst hb
      simp only [collectGroups, if_pos rfl] at hg
      rcases List.mem_cons.mp hg with h3 | h3
      · exact ⟨tc, h3 ▸ h1, h2⟩
      · exact ih [27] [] rfl (by simp) g h3
    · simp only [collectGroups, if_neg hb] at hg
      refine ih (cur ++ [b]) (tc ++ [b]) (by simp [h1]) ?_ g hg
      intro hc
      rcases List.mem_append.mp hc with h4 | h4
      · exact h2 h4
      · simp at h4
        exact hb h4.symm

/-- When the scanned remainder contains no ESC byte, exactly one group is
collected: the current slice followed by the whole remainder. -/
theorem collectGroups_no27 : ∀ (l cur : List Nat), 27 ∉ l →
    collectGroups cur l = [cur ++ l] := by
  intro l
  induction l with
  | nil => intro cur _; simp [collectGroups]
  | cons b rest ih =>
    intro cur h
    have hb : ¬ b = 27 := fun hb => h (by simp [hb])
    have hr : 27 ∉ rest := fun hr => h (by simp [hr])
    simp [collectGroups, hb, ih _ hr]

/-- The StdinListener read loop never touches the terminal settings. -/
theorem stdinLoop_term {σ : Type} : ∀ (events : List ReadEvent)
    (q : InputBuffer Nat) (t : σ), (stdinLoop q t events).2.1 = t := by
  intro events
  induction events with
  | nil => intro q t; rfl
  | cons ev rest ih =>
    intro q t
    cases ev with
    | deactivate => exact ih _ _
    | read c =>
      by_cases hq : q.IsActive <;> simp [stdinLoop, hq, ih]
    | fail =>
      by_cases hq : q.IsActive <;> simp [stdinLoop, hq]

/-- Successive puts on an active queue append the items at the tail. -/
theorem putList_active {α : Type} : ∀ (xs : List α) (q : InputBuffer α),
    q.IsActive = true → putList q xs = ⟨true, q.Buffer ++ xs⟩ := by
  intro xs
  induction xs with
  | nil =>
    intro q h
    cases q with
    | mk act buf => subst h; simp [putList]
  | cons x xs ih =>
    intro q h
    rw [putList, ih _ (by simp [InputBuffer.put, h])]
    simp [InputBuffer.put, h]

/-- Draining an active queue by as many gets as it holds items returns
every item, in order, and leaves the storage empty. -/
theorem getList_all {α : Type} : ∀ xs : List α,
    getList ⟨true, xs⟩ xs.length = (xs.map some, ⟨true, []⟩) := by
  intro xs
  induction xs with
  | nil => rfl
  | cons x xs ih =>
    simp [getList, InputBuffer.get, InputBuffer.IsNotEmpty, ih]

/-- Claim C5: StdinListener captures the current terminal settings before
switching the terminal to cbreak mode and restores exactly those captured
settings before returning on every exit path — normal loop exit after the
queue is deactivated as well as a raised read error — while the read loop
itself never changes the threaded terminal state. -/
theorem claim5_restores_terminal {σ : Type} (setcbreak : σ → σ) (term : σ)
    (events : List ReadEvent) (q : InputBuffer Nat) :
    (StdinListener setcbreak term events q).2.1 = term ∧
    (stdinLoop q (setcbreak term) events).2.1 = setcbreak term :=
  ⟨rfl, stdinLoop_term events q (setcbreak term)⟩

/-- Claim C6: on a queue whose Active flag is false, put leaves the state
(and in particular the stored buffer) unchanged, and get returns the
empty result without removing any element, even when the buffer is
non-empty — buffered items are retained, not erased. -/
theorem claim6_deactivated {α : Type} (q : InputBuffer α) (x : α)
    (h : q.IsActive = false) :
    q.put x = q ∧ q.get = (none, q) := by
  constructor
  · simp [InputBuffer.put, h]
  · simp [InputBuffer.get, h]

/-- Witness for claim C6 on a deactivated queue with a non-empty buffer. -/
theorem claim6_witness :
    (InputBuffer.mk false [1, 2] : InputBuffer Nat).IsActive = false ∧
    ((InputBuffer.mk false [1, 2] : InputBuffer Nat).put 5 =
        InputBuffer.mk false [1, 2] ∧
      (InputBuffer.mk false [1, 2] : InputBuffer Nat).get =
        (none, InputBuffer.mk false [1, 2])) :=
  ⟨rfl, claim6_deactivated (InputBuffer.mk false [1, 2]) 5 rfl⟩

/-- Claim C7: on an active queue with empty storage, putting the items
x1..xn in order and then performing n successive gets returns exactly
x1..xn in the same order and drains the storage — FIFO delivery with no
reordering, duplication or loss while active. -/
theorem claim7_fifo {α : Type} (q : InputBuffer α) (xs : List α)
    (h1 : q.IsActive = true) (h2 : q.Buffer = []) :
    (getList (putList q xs) xs.length).1 = xs.map some ∧
    (getList (putList q xs) xs.length).2 = ⟨true, []⟩ := by
  rw [putList_active xs q h1, h2]
  constructor <;> simp [getList_all]

/-- Witness for claim C7 with three items. -/
theorem claim7_witness :
    (getList (putList (InputBuffer.mk true ([] : List Nat)) [10, 20, 30]) 3).1 =
      [some 10, some 20, some 30] :=
  (claim7_fifo (InputBuffer.mk true ([] : List Nat)) [10, 20, 30] rfl rfl).1

/-- Claim C8: for every byte c in 0..31 or 127, feeding exactly that
single byte as the whole accumulated input of one decoder poll pushes
exactly one Control event whose Name equals the ASCII_CONTROL_CODES table
entry for c. -/
theorem claim8_control_event (CSI : List (List Nat × List Nat))
    (ACM : String → Option (List String)) (c : Nat)
    (h : c ≤ 31 ∨ c = 127) :
    ∃ Name, ASCII_CONTROL_CODES c = some Name ∧
      KeystrokesListener CSI ACM [c] =
        some [PyVal.ctrl Name (dictGet ACM Name)] := by
  rcases h with h | rfl
  · interval_cases c <;> exact ⟨_, rfl, rfl⟩
  · exact ⟨"DEL", rfl, rfl⟩

/-- Witness for claim C8 at byte 9, whose table entry is 'TAB'. -/
theorem claim8_witness :
    ((9 : Nat) ≤ 31 ∨ (9 : Nat) = 127) ∧
    (∃ Name, ASCII_CONTROL_CODES 9 = some Name ∧
      KeystrokesListener sampleCSI sampleACM [9] =
        some [PyVal.ctrl Name (dictGet sampleACM Name)]) ∧
    ASCII_CONTROL_CODES 9 = some "TAB" ∧ ASCII_CONTROL_CODES 27 = some "ESC" :=
  ⟨Or.inl (by decide),
   claim8_control_event sampleCSI sampleACM 9 (Or.inl (by decide)),
   by decide, by decide⟩

/-- Claim C9: for every input containing an ESC byte, ParseEscapeSequence
partitions it into a leading ESC-free segment followed by escape groups
split at each ESC byte; every group begins with the ESC byte, contains no
other ESC byte, and the groups in order exactly cover the input from the
first ESC byte to the end. -/
theorem claim9_partition (Data : List Nat) (h : 27 ∈ Data) :
    ∃ le te, firstEscSplit Data = some (le, te) ∧ Data = le ++ 27 :: te ∧
      27 ∉ le ∧ (collectGroups [27] te).flatten = 27 :: te ∧
      ∀ g ∈ collectGroups [27] te, ∃ r, g = 27 :: r ∧ 27 ∉ r := by
  obtain ⟨le, te, h1, h2, h3⟩ := firstEscSplit_some Data h
  refine ⟨le, te, h1, h2, h3, ?_, ?_⟩
  · simpa using collectGroups_flatten te [27]
  · intro g hg
    exact collectGroups_mem te [27] [] rfl (by simp) g hg

/-- Witness for claim C9 on an input with a leading segment and two
escape groups. -/
theorem claim9_witness :
    (27 ∈ [65, 27, 66, 27, 91]) ∧
    ∃ le te, firstEscSplit [65, 27, 66, 27, 91] = some (le, te) ∧
      [65, 27, 66, 27, 91] = le ++ 27 :: te ∧ 27 ∉ le ∧
      (collectGroups [27] te).flatten = 27 :: te ∧
      ∀ g ∈ collectGroups [27] te, ∃ r, g = 27 :: r ∧ 27 ∉ r :=
  ⟨by decide, claim9_partition [65, 27, 66, 27, 91] (by decide)⟩

/-- Claim C10: the leading scan of ParseEscapeSequence fails with an
IndexError (modelled by `none`) exactly when the input contains no ESC
byte, and its only caller KeystrokesListener invokes it only on encoded
input containing the byte 27, under which precondition the scan
succeeds — the out-of-bounds branch is unreachable from the caller. -/
theorem claim10_scan_guard (CSI : List (List Nat × List Nat))
    (ACM : String → Option (List String)) (Data Input : List Nat) :
    (firstEscSplit Data = none ↔ 27 ∉ Data) ∧
    (1 < Input.length → 27 ∈ utf8Encode Input →
      KeystrokesListener CSI ACM Input =
        ParseEscapeSequence CSI ACM (utf8Encode Input) ∧
      ∃ le te, firstEscSplit (utf8Encode Input) = some (le, te)) := by
  constructor
  · exact firstEscSplit_none Data
  · intro hlen h27
    obtain ⟨a, rest, rfl⟩ : ∃ a rest, Input = a :: rest := by
      cases Input with
      | nil => simp at hlen
      | cons a rest => exact ⟨a, rest, rfl⟩
    obtain ⟨b, t, rfl⟩ : ∃ b t, rest = b :: t := by
      cases rest with
      | nil => simp at hlen
      | cons b t => exact ⟨b, t, rfl⟩
    refine ⟨?_, ?_⟩
    · simp [KeystrokesListener, h27]
    · obtain ⟨le, te, hsp, _, _⟩ := firstEscSplit_some _ h27
      exact ⟨le, te, hsp⟩

/-- Witness for claim C10: an ESC-free input makes the scan fail, and the
guarded caller path is exercised on a genuine escape input. -/
theorem claim10_witness :
    (firstEscSplit [1, 2, 3] = none ↔ 27 ∉ [1, 2, 3]) ∧
    (KeystrokesListener sampleCSI sampleACM [27, 65] =
        ParseEscapeSequence sampleCSI sampleACM (utf8Encode [27, 65]) ∧
      ∃ le te, firstEscSplit (utf8Encode [27, 65]) = some (le, te)) :=
  ⟨(claim10_scan_guard sampleCSI sampleACM [1, 2, 3] [27, 65]).1,
   (claim10_scan_guard sampleCSI sampleACM [1, 2, 3] [27, 65]).2
     (by decide) (by decide)⟩

/-- Counterexample for claim C1: with the CSI table containing the entry
ESC `[` `A` mapped to "ArrowUp", the group ESC `[` `A` `x` does not yield
the mapped CSI event followed by a literal — the Alt branch preempts the
prefix search and three events are produced instead. -/
theorem claim1_cex :
    ParseEscapeSequence sampleCSI sampleACM [27, 91, 65, 120] ≠
      some [PyVal.str (cps "ArrowUp"), PyVal.str [120]] ∧
    ParseEscapeSequence sampleCSI sampleACM [27, 91, 65, 120] =
      some [PyVal.str (cps "Alt-" ++ [91]), PyVal.str [65], PyVal.str [120]] := by
  decide

/-- Claim C1 as amended: for every escape group consisting of a recognized
CSI-table entry (whose second byte is printable ASCII) followed by one
unrelated non-space printable byte, ParseEscapeSequence emits an
Alt-<second byte> event followed by one Literal event per remaining byte;
the CSI prefix match is never consulted because the Alt branch preempts
the longest-prefix search. -/
theorem claim1_amended (CSI : List (List Nat × List Nat))
    (ACM : String → Option (List String)) (b1 x : Nat) (rest v : List Nat)
    (_hmem : List.lookup (27 :: b1 :: rest) CSI = some v)
    (hb1 : 32 ≤ b1 ∧ b1 < 127)
    (hrest : ∀ c ∈ rest, 33 ≤ c ∧ c < 127)
    (hx : 33 ≤ x ∧ x < 127)
    (hno : List.lookup (27 :: b1 :: (rest ++ [x])) CSI = none) :
    ParseEscapeSequence CSI ACM (27 :: b1 :: (rest ++ [x])) =
      some (PyVal.str (cps "Alt-" ++ [b1]) ::
        (rest ++ [x]).map (fun c => PyVal.str [c])) := by
  have h27 : (27 : Nat) ∉ b1 :: (rest ++ [x]) := by
    intro hc
    rcases List.mem_cons.mp hc with h | h
    · omega
    · rcases List.mem_append.mp h with h | h
      · have := hrest 27 h; omega
      · simp at h; omega
  have hg : collectGroups [27] (b1 :: (rest ++ [x])) =
      [27 :: b1 :: (rest ++ [x])] := by
    rw [collectGroups_no27 _ _ h27]
    rfl
  have hdec : utf8Decode (rest ++ [x]) = some (rest ++ [x]) := by
    apply utf8Decode_ascii
    intro c hc
    rcases List.mem_append.mp hc with h | h
    · have := hrest c h; omega
    · simp at h; omega
  have hsplit : SplitCharacters ACM (rest ++ [x]) =
      some ((rest ++ [x]).map (fun c => PyVal.str [c])) := by
    apply SplitCharacters_noCtrl
    intro c hc
    rcases List.mem_append.mp hc with h | h
    · exact noCtrlName c (hrest c h).1 (hrest c h).2
    · simp at h
      subst h
      exact noCtrlName _ hx.1 hx.2
  have hlen : 2 < (27 :: b1 :: (rest ++ [x])).length := by simp
  have hcg : classifyGroup CSI ACM (27 :: b1 :: (rest ++ [x])) =
      some (PyVal.str (cps "Alt-" ++ [b1]) ::
        (rest ++ [x]).map (fun c => PyVal.str [c])) := by
    unfold classifyGroup
    simp only [hno]
    rw [if_pos hb1, if_pos hlen]
    have hdrop : (27 :: b1 :: (rest ++ [x])).drop 2 = rest ++ [x] := rfl
    rw [hdrop]
    simp only [hdec]
    rw [hsplit]
    rfl
  have hfs : firstEscSplit (27 :: b1 :: (rest ++ [x])) =
      some ([], b1 :: (rest ++ [x])) := by
    simp [firstEscSplit]
  simp [ParseEscapeSequence, hfs, hg, classifyGroups, hcg]

/-- Witness for the amended claim C1 at the group ESC `[` `A` `x`. -/
theorem claim1_witness :
    List.lookup [27, 91, 65] sampleCSI = some (cps "ArrowUp") ∧
    List.lookup [27, 91, 65, 120] sampleCSI = none ∧
    ParseEscapeSequence sampleCSI sampleACM (27 :: 91 :: ([65] ++ [120])) =
      some (PyVal.str (cps "Alt-" ++ [91]) ::
        ([65] ++ [120]).map (fun c => PyVal.str [c])) :=
  ⟨by decide, by decide,
   claim1_amended sampleCSI sampleACM 91 120 [65] (cps "ArrowUp")
     (by decide) (by decide) (by decide) (by decide) (by decide)⟩

/-- Claim C2 failing input: the escape group ESC SOH (bytes 27, 1) has no
CSI-table match at any prefix length and its second byte is not printable,
yet the classifier emits no bare-ESC event — it emits nothing at all, so
the group's bytes are silently dropped: the whole input 'A' ESC SOH
produces only the single Literal 'A'. -/
theorem claim2_dropped_group :
    classifyGroup sampleCSI sampleACM [27, 1] = some [] ∧
    ParseEscapeSequence sampleCSI sampleACM [65, 27, 1] =
      some [PyVal.str [65]] := by
  decide

/-- Counterexample for claim C3: feeding the printable byte 0x20 (space,
which claim C3 includes) does not push a Literal event — the
ASCII_CONTROL_CODES table contains the entry 32 'SPACE', so a Control
event is pushed instead. -/
theorem claim3_cex :
    KeystrokesListener sampleCSI sampleACM [32] ≠ some [PyVal.str [32]] ∧
    KeystrokesListener sampleCSI sampleACM [32] =
      some [PyVal.ctrl "SPACE" (PyKeys.of ["Key-SPACE"])] := by
  decide

/-- Claim C3 as amended: for every single byte b with 0x21 <= b <= 0x7E,
one decoder poll on exactly that byte pushes exactly one Literal event
equal to that character; the remaining claimed byte 0x20 instead pushes
one Control event named 'SPACE', because the ASCII control-code table
includes 32. -/
theorem claim3_amended (CSI : List (List Nat × List Nat))
    (ACM : String → Option (List String)) (b : Nat)
    (h1 : 33 ≤ b) (h2 : b ≤ 126) :
    KeystrokesListener CSI ACM [b] = some [PyVal.str [b]] ∧
    KeystrokesListener CSI ACM [32] =
      some [PyVal.ctrl "SPACE" (dictGet ACM "SPACE")] := by
  constructor
  · have hb : ASCII_CONTROL_CODES b = none := noCtrlName b h1 (by omega)
    simp [KeystrokesListener, hb]
  · rfl

/-- Witness for the amended claim C3 at the byte 'x' (0x78). -/
theorem claim3_witness :
    ((33 : Nat) ≤ 120 ∧ (120 : Nat) ≤ 126) ∧
    (KeystrokesListener sampleCSI sampleACM [120] = some [PyVal.str [120]] ∧
      KeystrokesListener sampleCSI sampleACM [32] =
        some [PyVal.ctrl "SPACE" (dictGet sampleACM "SPACE")]) :=
  ⟨⟨by decide, by decide⟩,
   claim3_amended sampleCSI sampleACM 120 (by decide) (by decide)⟩

/-- Claim C4 failing input: with a CSI table holding the entry ESC SOH
mapped to "Weird", the group ESC SOH 'A' reaches the longest-prefix
branch, which appends the raw clipped prefix bytes object (line 170 of
keystroke_posix.py) instead of the event the table maps that prefix to. -/
theorem claim4_raw_clipped :
    classifyGroup sampleCSIodd sampleACM [27, 1, 65] =
      some [PyVal.bytes [27, 1], PyVal.str [65]] ∧
    ParseEscapeSequence sampleCSIodd sampleACM [27, 1, 65] =
      some [PyVal.bytes [27, 1], PyVal.str [65]] ∧
    ParseEscapeSequence sampleCSIodd sampleACM [27, 1, 65] ≠
      some [PyVal.str (cps "Weird"), PyVal.str [65]] := by
  decide
